import Mathlib

set_option maxHeartbeats 1000000

namespace PharmaGuard

/-! Shallow embedding of the PharmaGuard front-end controller
(src/src/App.jsx): file intake, drug-query composition, the analyze
request lifecycle, and result presentation/export. -/

/-- A candidate file offered through the drop zone: name, byte size and
declared MIME type (the `File` objects handled in src/src/App.jsx). -/
structure FileCand where
  name : String
  size : Nat
  type : String
deriving DecidableEq

/-- Decimal-literal model of a JSON/JavaScript number as it is printed:
sign, integer part, and `fracLen` fraction digits with value `fracPart`.
A double printed by `JSON.stringify` is modelled by the decimal literal
it prints. -/
structure Dec where
  neg : Bool
  intPart : Nat
  fracPart : Nat
  fracLen : Nat
deriving DecidableEq

/-- Well-formedness of a decimal: the fraction value fits in the declared
number of fraction digits. -/
def decWf (d : Dec) : Prop := d.fracPart < 10 ^ d.fracLen

instance (d : Dec) : Decidable (decWf d) := by unfold decWf; infer_instance

/-- Model of JSON values as delivered by `response.json()`. -/
inductive Json where
  | null : Json
  | bool (b : Bool) : Json
  | num (d : Dec) : Json
  | str (s : String) : Json
  | arr (elems : List Json) : Json
  | obj (fields : List (String × Json)) : Json

/-- Decimal digit character of `d` (meant for `d < 10`). -/
def digitChar (d : Nat) : Char := Char.ofNat (48 + d)

/-- Big-endian decimal digit characters of a natural number (no leading
zeros, `0` rendered as `"0"`). -/
def natChars (n : Nat) : List Char :=
  if n < 10 then [digitChar n]
  else natChars (n / 10) ++ [digitChar (n % 10)]
decreasing_by exact Nat.div_lt_self (by omega) (by omega)

/-- Digit characters of a decimal without its sign: integer part, then a
point and the zero-padded fraction when `fracLen` is positive. -/
def decDigitChars (d : Dec) : List Char :=
  natChars d.intPart ++
    (if d.fracLen = 0 then []
     else '.' :: (List.replicate (d.fracLen - (natChars d.fracPart).length) '0' ++
       natChars d.fracPart))

/-- Character rendering of a decimal, with its sign. -/
def decChars (d : Dec) : List Char :=
  (if d.neg then ['-'] else []) ++ decDigitChars d

/-- Whether the decimal denotes zero. -/
def decIsZero (d : Dec) : Bool := d.intPart == 0 && d.fracPart == 0

/-- JavaScript truthiness of a JSON value (`undefined` is represented by
`Option.none` at use sites). -/
def jsTruthy : Json → Bool
  | .null => false
  | .bool b => b
  | .num d => !(decIsZero d)
  | .str s => !(s == "")
  | .arr _ => true
  | .obj _ => true

mutual

/-- JavaScript string coercion of a JSON value, the `message` of
`new Error(v)` for truthy `v`. -/
def jsToString : Json → String
  | .null => "null"
  | .bool b => if b then "true" else "false"
  | .num d => String.mk (decChars d)
  | .str s => s
  | .arr xs => jsListString xs
  | .obj _ => "[object Object]"

/-- `Array.prototype.toString`: element strings joined with commas, null
elements rendered empty. -/
def jsListString : List Json → String
  | [] => ""
  | [Json.null] => ""
  | [v] => jsToString v
  | Json.null :: rest => "," ++ jsListString rest
  | v :: rest => jsToString v ++ "," ++ jsListString rest

end

/-- Property lookup `errData.detail` on a parsed JSON value: only objects
carry the property, and `JSON.parse` keeps the last duplicate key. -/
def detailOf : Json → Option Json
  | .obj fields => (fields.reverse.find? (fun p => p.1 == "detail")).map (fun p => p.2)
  | _ => none

/-- Local validation message for a missing file (src/src/App.jsx line 31). -/
def missingFileMsg : String := "Please upload a VCF file first."

/-- Local validation message for blank drug text (line 35). -/
def missingDrugsMsg : String := "Please enter at least one drug name."

/-- Generic server-error message (line 55). -/
def serverErrMsg : String := "Server error. Make sure your Python backend is running!"

/-- Message of the TypeError thrown by evaluating `errData.detail` when
the parsed failure body is `null` (line 55): property access on `null`
throws inside the `try`, and the outer catch surfaces that error's own
message. The exact wording is engine-supplied; the V8 text is used as
the representative value. -/
def nullDetailErrMsg : String := "Cannot read properties of null (reading 'detail')"

/-- Whether a JSON value is `null` (the one parseable body on which
property access throws). -/
def isNullJson : Json → Bool
  | .null => true
  | _ => false

/-- Rejection reason surfaced by the drop handler (line 15). -/
def rejectReason : String := "Please upload a valid .vcf file under 5MB."

/-- Outcome of parsing a response body (`response.json()`): a JSON value,
or a rejection whose error carries a parser message. -/
inductive Body where
  | unparseable (parseMsg : String) : Body
  | json (v : Json) : Body

/-- Outcome of the single `fetch` call: a network-level fault (the promise
rejects with an error carrying `msg`), or a response with an `ok` status
flag and a body. -/
inductive FetchOutcome where
  | fault (msg : String) : FetchOutcome
  | resp (ok : Bool) (body : Body) : FetchOutcome

/-- Error message produced for a non-ok response (lines 53-55):
`errData.detail || serverErrMsg`, where `errData` is the parsed body, or
the empty object when the body does not parse. When the body parses to
`null`, the property access `errData.detail` itself throws and that
TypeError's message is surfaced instead. -/
def errMsgOf : Body → String
  | .unparseable _ => serverErrMsg
  | .json v =>
    if isNullJson v then nullDetailErrMsg
    else
      match detailOf v with
      | none => serverErrMsg
      | some d => if jsTruthy d then jsToString d else serverErrMsg

/-- Normalization of a successful payload (line 59): an array is used
as-is, any other value is wrapped into a one-element sequence. -/
def normalizeResp : Json → List Json
  | .arr xs => xs
  | v => [v]

/-- The component state: the five `useState` slots of `App` (lines 5-9). -/
structure AppState where
  file : Option FileCand
  drugs : String
  results : Option (List Json)
  loading : Bool
  error : Option String

/-- The initial component state. -/
def initState : AppState :=
  { file := none, drugs := "", results := none, loading := false, error := none }

/-- Whitespace recognized by JavaScript `String.prototype.trim`: the
ASCII whitespace forms plus no-break space, BOM and the line/paragraph
separators. -/
def isWsChar (c : Char) : Bool :=
  c == ' ' || c == '\t' || c == '\n' || c == '\r' || c == Char.ofNat 11 ||
    c == Char.ofNat 12 || c == Char.ofNat 160 || c == Char.ofNat 65279 ||
    c == Char.ofNat 8232 || c == Char.ofNat 8233

/-- JavaScript `String.prototype.trim`: strips leading and trailing
whitespace and line terminators. -/
def jsTrim (s : String) : String :=
  String.mk (((s.data.dropWhile isWsChar).reverse.dropWhile isWsChar).reverse)

/-- The analyze handler (lines 29-65) as a state transformer. `net` is the
outcome of the single `fetch`; the returned flag records whether the
network was contacted. -/
def handleAnalyze (s : AppState) (net : FetchOutcome) : AppState × Bool :=
  if s.file.isNone then ({ s with error := some missingFileMsg }, false)
  else if jsTrim s.drugs = "" then ({ s with error := some missingDrugsMsg }, false)
  else
    let base := { s with loading := true, error := none, results := none }
    let after :=
      match net with
      | .fault msg => { base with error := some msg }
      | .resp ok body =>
        if ok then
          match body with
          | .unparseable msg => { base with error := some msg }
          | .json v => { base with results := some (normalizeResp v) }
        else
          { base with error := some (errMsgOf body) }
    ({ after with loading := false }, true)

/-- ASCII uppercase mapping of one character, modelling
`String.prototype.toUpperCase` on the ASCII range. -/
def upperChar (c : Char) : Char :=
  if 97 ≤ c.toNat ∧ c.toNat ≤ 122 then Char.ofNat (c.toNat - 32) else c

/-- The drug-input composer (line 133): `e.target.value.toUpperCase()`. -/
def normalize (s : String) : String := String.mk (s.data.map upperChar)

/-- ASCII lowercase mapping of one character, used for the
case-insensitive extension check. -/
def lowerChar (c : Char) : Char :=
  if 65 ≤ c.toNat ∧ c.toNat ≤ 90 then Char.ofNat (c.toNat + 32) else c

/-- Case-insensitive check that a file name ends in the given extension
characters. -/
def endsWithExt (name : String) (ext : List Char) : Bool :=
  List.isSuffixOf ext (name.data.map lowerChar)

/-- Modelled from the spec: the drop-zone type filter itself is
`react-dropzone` library code absent from this repository; spec §4.1
together with the configuration at src/src/App.jsx lines 21-26 fixes it
as: file extension `.vcf`, or MIME `text/vcard` /
`application/octet-stream`. -/
def vcfFamily (c : FileCand) : Bool :=
  endsWithExt c.name ['.', 'v', 'c', 'f'] || c.type == "text/vcard" ||
    c.type == "application/octet-stream"

/-- Modelled from the spec: acceptance decision of the drop zone — byte
size at most 5242880 (`maxSize`, line 24) and a VCF-family type. -/
def fileAccept (c : FileCand) : Bool :=
  decide (c.size ≤ 5242880) && vcfFamily c

/-- Typed outcome of the FileIntakeValidator (spec §4.1). -/
inductive AcceptOutcome where
  | accepted (c : FileCand) : AcceptOutcome
  | rejected (reason : String) : AcceptOutcome
deriving DecidableEq

/-- Modelled from the spec: `accept(candidate)` yields the candidate or a
single human-readable rejection reason; the reason is the one the drop
handler surfaces (line 15). -/
def accept (c : FileCand) : AcceptOutcome :=
  if fileAccept c then .accepted c else .rejected rejectReason

/-- The drop callback (lines 12-19): clears the error, surfaces the
rejection reason when any file was rejected, otherwise stages the first
accepted file. -/
def onDrop (acceptedFiles rejectedFiles : List FileCand) (s : AppState) : AppState :=
  let s0 := { s with error := none }
  if rejectedFiles.length > 0 then { s0 with error := some rejectReason }
  else { s0 with file := acceptedFiles.head? }

/-- User-level events driving the component state. A dropped candidate is
routed into the accepted or the rejected list by the drop-zone filter
(`multiple: false`, single candidate). -/
inductive Event where
  | drop (c : FileCand) : Event
  | input (raw : String) : Event
  | analyze (net : FetchOutcome) : Event

/-- One event transition of the component: drop, text input, or an
analyze trigger (ignored while a request is in flight, since the button
is disabled). -/
def step (s : AppState) : Event → AppState
  | .drop c => if fileAccept c then onDrop [c] [] s else onDrop [] [c] s
  | .input raw => { s with drugs := normalize raw }
  | .analyze net => if s.loading then s else (handleAnalyze s net).1

/-- State reached from the initial state by a sequence of events. -/
def runEvents (es : List Event) : AppState := es.foldl step initState

/-- Severity classes of the spec's ResultPresenter (§4.4). -/
inductive SeverityClass where
  | low : SeverityClass
  | medium : SeverityClass
  | high : SeverityClass
  | unknown : SeverityClass
deriving DecidableEq

/-- Risk-label to card-colour mapping (lines 68-76). -/
def getRiskColor (label : String) : String :=
  if label == "Safe" then "bg-green-100 border-green-500 text-green-900"
  else if label == "Adjust Dosage" then "bg-yellow-100 border-yellow-500 text-yellow-900"
  else if label == "Toxic" || label == "Ineffective" then
    "bg-red-100 border-red-500 text-red-900"
  else "bg-gray-100 border-gray-500 text-gray-900"

/-- The spec's `classify` (§4.4), written from the spec's words, to be
compared with `getRiskColor`. -/
def classify (label : String) : SeverityClass :=
  if label == "Safe" then .low
  else if label == "Adjust Dosage" then .medium
  else if label == "Toxic" || label == "Ineffective" then .high
  else .unknown

/-- The colour classes the source uses for each severity class: green for
low, yellow for medium, red for high, gray for unknown. -/
def colorOfClass : SeverityClass → String
  | .low => "bg-green-100 border-green-500 text-green-900"
  | .medium => "bg-yellow-100 border-yellow-500 text-yellow-900"
  | .high => "bg-red-100 border-red-500 text-red-900"
  | .unknown => "bg-gray-100 border-gray-500 text-gray-900"

/-- `Number.prototype.toFixed(0)` on an exact score: the integer `n`
closest to `q`, ties resolved to the larger `n` (ECMA-262 Number.toFixed,
scores modelled as exact rationals). -/
def toFixed0 (q : ℚ) : ℤ := ⌊q + 1 / 2⌋

/-- Confidence rendering (line 185):
`(result.risk_assessment.confidence_score * 100).toFixed(0)` followed by
the percent sign. -/
def confidenceText (score : ℚ) : String := toString (toFixed0 (score * 100)) ++ "%"

/-- Pharmacogenomic profile object of an AnalysisResult (spec §3). -/
structure Profile where
  primary_gene : String
  diplotype : String
  phenotype : String
deriving DecidableEq

/-- Risk-assessment object of an AnalysisResult (spec §3); the confidence
score is modelled by the decimal literal of the double. -/
structure Risk where
  risk_label : String
  severity : String
  confidence_score : Dec
deriving DecidableEq

/-- Clinical-recommendation object of an AnalysisResult (spec §3). -/
structure Recommendation where
  dosing_guidance : String
  alternative_drugs : List String
deriving DecidableEq

/-- Explanation object of an AnalysisResult (spec §3). -/
structure Explanation where
  biological_mechanism : String
deriving DecidableEq

/-- The per-drug result record (spec §3), the value handed to the
copy/download export handlers. -/
structure AnalysisResult where
  drug : String
  pharmacogenomic_profile : Profile
  risk_assessment : Risk
  clinical_recommendation : Recommendation
  llm_generated_explanation : Explanation
deriving DecidableEq

/-- Hexadecimal digit character (lowercase), as emitted by
`JSON.stringify` unicode escapes. -/
def hexDigitChar (n : Nat) : Char :=
  if n < 10 then Char.ofNat (48 + n) else Char.ofNat (87 + n)

/-- `JSON.stringify` escaping of one string character: quote, backslash
and control characters are escaped, everything else passes through. -/
def escChar (c : Char) : List Char :=
  if c = '"' then ['\\', '"']
  else if c = '\\' then ['\\', '\\']
  else if c = Char.ofNat 8 then ['\\', 'b']
  else if c = Char.ofNat 9 then ['\\', 't']
  else if c = Char.ofNat 10 then ['\\', 'n']
  else if c = Char.ofNat 12 then ['\\', 'f']
  else if c = Char.ofNat 13 then ['\\', 'r']
  else if c.toNat < 32 then
    ['\\', 'u', '0', '0', hexDigitChar (c.toNat / 16), hexDigitChar (c.toNat % 16)]
  else [c]

/-- Escaping of a character sequence. -/
def escChars : List Char → List Char
  | [] => []
  | c :: cs => escChar c ++ escChars cs

/-- `JSON.stringify` rendering of a string: quoted and escaped. -/
def emitStr (s : String) : List Char := '"' :: (escChars s.data ++ ['"'])

/-- Newline plus the six-space indentation of array elements nested at
depth three. -/
def nl6 : List Char := ['\n', ' ', ' ', ' ', ' ', ' ', ' ']

/-- Newline, four-space indentation, and the closing bracket of the
alternative-drugs array. -/
def nlClose4 : List Char := ['\n', ' ', ' ', ' ', ' ', ']']

/-- Elements of a non-empty string array as `JSON.stringify` lays them
out with two-space indentation. -/
def emitItems : List String → List Char
  | [] => []
  | [x] => nl6 ++ (emitStr x ++ nlClose4)
  | x :: xs => nl6 ++ (emitStr x ++ (',' :: emitItems xs))

/-- `JSON.stringify` rendering of a string array at depth two: `[]` when
empty, one element per line otherwise. -/
def emitStrList (xs : List String) : List Char :=
  match xs with
  | [] => ['[', ']']
  | _ => '[' :: emitItems xs

/-- Literal chunk of the serialized record before the drug name. -/
def lit1 : List Char := "\x7b\n  \"drug\": ".data

/-- Literal chunk between the drug name and the primary gene. -/
def lit2 : List Char := ",\n  \"pharmacogenomic_profile\": \x7b\n    \"primary_gene\": ".data

/-- Literal chunk before the diplotype. -/
def lit3 : List Char := ",\n    \"diplotype\": ".data

/-- Literal chunk before the phenotype. -/
def lit4 : List Char := ",\n    \"phenotype\": ".data

/-- Literal chunk closing the profile and opening the risk assessment. -/
def lit5 : List Char := "\n  \x7d,\n  \"risk_assessment\": \x7b\n    \"risk_label\": ".data

/-- Literal chunk before the severity. -/
def lit6 : List Char := ",\n    \"severity\": ".data

/-- Literal chunk before the confidence score. -/
def lit7 : List Char := ",\n    \"confidence_score\": ".data

/-- Literal chunk closing the risk assessment and opening the clinical
recommendation. -/
def lit8 : List Char := "\n  \x7d,\n  \"clinical_recommendation\": \x7b\n    \"dosing_guidance\": ".data

/-- Literal chunk before the alternative-drugs array. -/
def lit9 : List Char := ",\n    \"alternative_drugs\": ".data

/-- Literal chunk closing the recommendation and opening the explanation. -/
def lit10 : List Char := "\n  \x7d,\n  \"llm_generated_explanation\": \x7b\n    \"biological_mechanism\": ".data

/-- Literal chunk closing the explanation and the record. -/
def lit11 : List Char := "\n  \x7d\n\x7d".data

/-- Characters of `JSON.stringify(result, null, 2)` for an
AnalysisResult: fixed keys in server order, two-space indentation. -/
def exportChars (r : AnalysisResult) : List Char :=
  lit1 ++ (emitStr r.drug ++ (lit2 ++ (emitStr r.pharmacogenomic_profile.primary_gene ++
    (lit3 ++ (emitStr r.pharmacogenomic_profile.diplotype ++
    (lit4 ++ (emitStr r.pharmacogenomic_profile.phenotype ++
    (lit5 ++ (emitStr r.risk_assessment.risk_label ++
    (lit6 ++ (emitStr r.risk_assessment.severity ++
    (lit7 ++ (decChars r.risk_assessment.confidence_score ++
    (lit8 ++ (emitStr r.clinical_recommendation.dosing_guidance ++
    (lit9 ++ (emitStrList r.clinical_recommendation.alternative_drugs ++
    (lit10 ++ (emitStr r.llm_generated_explanation.biological_mechanism ++
    lit11)))))))))))))))))))

/-- `exportText(result)`: the canonical serialization
`JSON.stringify(result, null, 2)` (lines 79 and 84). -/
def exportText (r : AnalysisResult) : String := String.mk (exportChars r)

/-- Clipboard payload written by the copy handler (line 79). -/
def handleCopyJSON (r : AnalysisResult) : String := exportText r

/-- Blob content written by the download handler (line 84). -/
def handleDownloadJSON (r : AnalysisResult) : String := exportText r

/-- Consume an expected literal chunk of characters. -/
def expectChars : List Char → List Char → Option (List Char)
  | [], rest => some rest
  | _ :: _, [] => none
  | p :: ps, c :: cs => if c = p then expectChars ps cs else none

/-- Value of one hexadecimal digit character. -/
def hexVal (c : Char) : Option Nat :=
  if 48 ≤ c.toNat ∧ c.toNat ≤ 57 then some (c.toNat - 48)
  else if 97 ≤ c.toNat ∧ c.toNat ≤ 102 then some (c.toNat - 87)
  else if 65 ≤ c.toNat ∧ c.toNat ≤ 70 then some (c.toNat - 55)
  else none

/-- String-literal body parser: reads characters and escape sequences
until the closing quote, returning the decoded characters and the rest. -/
def pStrAux : List Char → List Char → Option (List Char × List Char)
  | _, [] => none
  | acc, c :: cs =>
    if c = '"' then some (acc.reverse, cs)
    else if c = '\\' then
      match cs with
      | [] => none
      | e :: cs2 =>
        if e = '"' then pStrAux ('"' :: acc) cs2
        else if e = '\\' then pStrAux ('\\' :: acc) cs2
        else if e = '/' then pStrAux ('/' :: acc) cs2
        else if e = 'b' then pStrAux (Char.ofNat 8 :: acc) cs2
        else if e = 'f' then pStrAux (Char.ofNat 12 :: acc) cs2
        else if e = 'n' then pStrAux (Char.ofNat 10 :: acc) cs2
        else if e = 'r' then pStrAux (Char.ofNat 13 :: acc) cs2
        else if e = 't' then pStrAux (Char.ofNat 9 :: acc) cs2
        else if e = 'u' then
          match cs2 with
          | h1 :: h2 :: h3 :: h4 :: cs3 =>
            match hexVal h1, hexVal h2, hexVal h3, hexVal h4 with
            | some a, some b, some c2, some d2 =>
              pStrAux (Char.ofNat (4096 * a + 256 * b + 16 * c2 + d2) :: acc) cs3
            | _, _, _, _ => none
          | _ => none
        else none
    else pStrAux (c :: acc) cs

/-- JSON string-literal parser. -/
def pString : List Char → Option (String × List Char)
  | '"' :: cs => (pStrAux [] cs).map (fun p => (String.mk p.1, p.2))
  | _ => none

/-- Whether a character is a decimal digit. -/
def isDigitChar (c : Char) : Bool := decide (48 ≤ c.toNat ∧ c.toNat ≤ 57)

/-- Numeric value of a digit character. -/
def charDigitVal (c : Char) : Nat := c.toNat - 48

/-- Value of a big-endian digit-character sequence. -/
def valChars (ds : List Char) : Nat := ds.foldl (fun a c => 10 * a + charDigitVal c) 0

/-- Read a non-empty run of digit characters. -/
def pDigits (cs : List Char) : Option (List Char × List Char) :=
  let ds := cs.takeWhile isDigitChar
  match ds with
  | [] => none
  | _ => some (ds, cs.dropWhile isDigitChar)

/-- Digit part of the JSON number parser, after the sign has been read:
integer digits, then an optional point with fraction digits. -/
def pDecAfterSign (neg : Bool) (cs1 : List Char) : Option (Dec × List Char) :=
  (pDigits cs1).bind (fun p =>
    if p.2.head? = some '.' then
      (pDigits p.2.tail).bind (fun q =>
        some ({ neg := neg, intPart := valChars p.1, fracPart := valChars q.1,
                fracLen := q.1.length }, q.2))
    else
      some ({ neg := neg, intPart := valChars p.1, fracPart := 0, fracLen := 0 }, p.2))

/-- JSON number parser for decimal literals: optional sign, integer
digits, optional point and fraction digits. -/
def pDec (cs : List Char) : Option (Dec × List Char) :=
  let neg : Bool := cs.head? == some '-'
  pDecAfterSign neg (if neg then cs.tail else cs)

/-- Elements parser of a non-empty serialized string array; the fuel
bounds the number of elements. -/
def pItems : Nat → List Char → Option (List String × List Char)
  | 0, _ => none
  | n + 1, cs =>
    (expectChars nl6 cs).bind (fun cs1 =>
      (pString cs1).bind (fun p =>
        if p.2.head? = some ',' then
          (pItems n p.2.tail).bind (fun q => some (p.1 :: q.1, q.2))
        else
          (expectChars nlClose4 p.2).map (fun cs3 => ([p.1], cs3))))

/-- Serialized string-array parser. -/
def pStrList (fuel : Nat) (cs : List Char) : Option (List String × List Char) :=
  if cs.head? = some '[' then
    if cs.tail.head? = some ']' then some ([], cs.tail.tail)
    else pItems fuel cs.tail
  else none

/-- Parser for the serialized pharmacogenomic-profile section, starting
at the chunk that precedes the primary gene. -/
def pProfile (cs : List Char) : Option (Profile × List Char) :=
  (expectChars lit2 cs).bind (fun cs =>
    (pString cs).bind (fun p1 =>
      (expectChars lit3 p1.2).bind (fun cs =>
        (pString cs).bind (fun p2 =>
          (expectChars lit4 p2.2).bind (fun cs =>
            (pString cs).map (fun p3 =>
              ({ primary_gene := p1.1, diplotype := p2.1, phenotype := p3.1 }, p3.2)))))))

/-- Parser for the serialized risk-assessment section, starting at the
chunk that closes the profile. -/
def pRisk (cs : List Char) : Option (Risk × List Char) :=
  (expectChars lit5 cs).bind (fun cs =>
    (pString cs).bind (fun p1 =>
      (expectChars lit6 p1.2).bind (fun cs =>
        (pString cs).bind (fun p2 =>
          (expectChars lit7 p2.2).bind (fun cs =>
            (pDec cs).map (fun p3 =>
              ({ risk_label := p1.1, severity := p2.1, confidence_score := p3.1 }, p3.2)))))))

/-- Parser for the serialized clinical-recommendation section, starting
at the chunk that closes the risk assessment. -/
def pRecommendation (cs : List Char) : Option (Recommendation × List Char) :=
  (expectChars lit8 cs).bind (fun cs =>
    (pString cs).bind (fun p1 =>
      (expectChars lit9 p1.2).bind (fun cs =>
        (pStrList (cs.length + 1) cs).map (fun p2 =>
          ({ dosing_guidance := p1.1, alternative_drugs := p2.1 }, p2.2)))))

/-- Parser for the serialized explanation section and the closing braces;
the whole rest must be consumed. -/
def pExplanationEnd (cs : List Char) : Option Explanation :=
  (expectChars lit10 cs).bind (fun cs =>
    (pString cs).bind (fun p1 =>
      (expectChars lit11 p1.2).bind (fun cs =>
        if cs.isEmpty then some { biological_mechanism := p1.1 } else none)))

/-- Parser for the canonical serialization of an AnalysisResult; the
whole input must be consumed. -/
def parseARChars (cs : List Char) : Option AnalysisResult :=
  (expectChars lit1 cs).bind (fun cs =>
    (pString cs).bind (fun pd =>
      (pProfile pd.2).bind (fun pp =>
        (pRisk pp.2).bind (fun pr =>
          (pRecommendation pr.2).bind (fun pc =>
            (pExplanationEnd pc.2).map (fun expl =>
              { drug := pd.1, pharmacogenomic_profile := pp.1,
                risk_assessment := pr.1, clinical_recommendation := pc.1,
                llm_generated_explanation := expl }))))))

/-- Parse the canonical serialization of an AnalysisResult from a string. -/
def parseAnalysisResult (s : String) : Option AnalysisResult := parseARChars s.data

/-- A small accepted VCF candidate used in concrete scenarios. -/
def vcfFile : FileCand := { name := "patient.vcf", size := 100, type := "text/vcard" }

/-- A sample single-record response payload. -/
def sampleResult : Json := Json.obj [("drug", Json.str "WARFARIN")]

/-- A concrete AnalysisResult used as an export example. -/
def sampleAR : AnalysisResult :=
  { drug := "WARFARIN"
    pharmacogenomic_profile :=
      { primary_gene := "CYP2C9", diplotype := "*1/*3",
        phenotype := "Intermediate Metabolizer" }
    risk_assessment :=
      { risk_label := "Adjust Dosage", severity := "high",
        confidence_score := { neg := false, intPart := 0, fracPart := 873, fracLen := 3 } }
    clinical_recommendation :=
      { dosing_guidance := "Reduce starting dose.", alternative_drugs := ["APIXABAN"] }
    llm_generated_explanation := { biological_mechanism := "Slower clearance." } }

/-- Event trace: stage a file, type a drug, analyze successfully, blank
the drug text, trigger analyze again (failing local validation). -/
def c1Trace : List Event :=
  [Event.drop vcfFile, Event.input "warfarin",
   Event.analyze (FetchOutcome.resp true (Body.json sampleResult)),
   Event.input "   ",
   Event.analyze (FetchOutcome.resp true (Body.json sampleResult))]

/-! Theorems. -/

/-- Converting a valid code point to a character and back is the
identity. -/
theorem toNat_ofNat_valid (n : Nat) (h : n.isValidChar) : (Char.ofNat n).toNat = n := by
  rw [Char.ofNat, dif_pos h]
  rfl

/-- Code points below the surrogate range are valid. -/
theorem isValidChar_of_lt (n : Nat) (h : n < 55296) : n.isValidChar := Or.inl h

/-- C2: triggering analyze with no staged file transitions directly to
failure with the missing-file message and no network call, regardless of
drug text; with a staged file and drug text blank after trimming it
fails with the missing-drugs message and no network call; the file check
runs first. -/
theorem C2_local_validation (s : AppState) (net : FetchOutcome) :
    (s.file = none →
      handleAnalyze s net = ({ s with error := some missingFileMsg }, false)) ∧
    (s.file ≠ none → jsTrim s.drugs = "" →
      handleAnalyze s net = ({ s with error := some missingDrugsMsg }, false)) := by
  constructor
  · intro h
    simp [handleAnalyze, h]
  · intro h1 h2
    simp [handleAnalyze, Option.isNone_iff_eq_none, h1, h2]

/-- Witness for C2 at concrete states: no staged file with non-blank drug
text, and a staged file with whitespace-only drug text. -/
theorem C2_local_validation_witness :
    handleAnalyze { initState with drugs := "ASPIRIN" } (FetchOutcome.fault "down") =
      ({ initState with drugs := "ASPIRIN", error := some missingFileMsg }, false) ∧
    handleAnalyze { initState with file := some vcfFile, drugs := "   " }
        (FetchOutcome.fault "down") =
      ({ initState with
          file := some vcfFile, drugs := "   ", error := some missingDrugsMsg }, false) := by
  constructor
  · exact (C2_local_validation _ _).1 rfl
  · exact (C2_local_validation _ _).2 (by simp) rfl

/-- C3: on a well-formed success response the stored ResultSet is the
payload normalized to a sequence — a sequence payload is stored as-is in
server order, any other payload is wrapped into a one-element sequence —
and the error slot is clear in the resulting state. -/
theorem C3_success_normalization (s : AppState) (v : Json) :
    s.file ≠ none → jsTrim s.drugs ≠ "" →
    ((handleAnalyze s (FetchOutcome.resp true (Body.json v))).1.results =
        some (normalizeResp v) ∧
     (handleAnalyze s (FetchOutcome.resp true (Body.json v))).1.error = none ∧
     (∀ xs, normalizeResp (Json.arr xs) = xs) ∧
     ((∀ xs, v ≠ Json.arr xs) → normalizeResp v = [v])) := by
  intro h1 h2
  refine ⟨?_, ?_, fun xs => rfl, ?_⟩
  · simp [handleAnalyze, Option.isNone_iff_eq_none, h1, h2]
  · simp [handleAnalyze, Option.isNone_iff_eq_none, h1, h2]
  · intro hv
    cases v with
    | arr xs => exact absurd rfl (hv xs)
    | null => rfl
    | bool b => rfl
    | num d => rfl
    | str s => rfl
    | obj fs => rfl

/-- Witness for C3: a ready state receiving the sample single-record
response stores the one-element wrap of it and no error. -/
theorem C3_success_normalization_witness :
    (handleAnalyze { initState with file := some vcfFile, drugs := "WARFARIN" }
        (FetchOutcome.resp true (Body.json sampleResult))).1.results =
      some [sampleResult] ∧
    (handleAnalyze { initState with file := some vcfFile, drugs := "WARFARIN" }
        (FetchOutcome.resp true (Body.json sampleResult))).1.error = none := by
  have h := C3_success_normalization
    { initState with file := some vcfFile, drugs := "WARFARIN" } sampleResult
    (by simp) (by decide)
  exact ⟨h.1, h.2.1⟩

/-- C5: the risk-label classification is a pure total mapping — Safe to
low, Adjust Dosage to medium, Toxic and Ineffective to high, everything
else to unknown — and the source's colour helper is exactly the colour
coding of that classification. -/
theorem C5_classify_total (label : String) :
    getRiskColor label = colorOfClass (classify label) ∧
    classify "Safe" = SeverityClass.low ∧
    classify "Adjust Dosage" = SeverityClass.medium ∧
    classify "Toxic" = SeverityClass.high ∧
    classify "Ineffective" = SeverityClass.high ∧
    classify "Unknown-Label" = SeverityClass.unknown ∧
    (label ≠ "Safe" → label ≠ "Adjust Dosage" → label ≠ "Toxic" → label ≠ "Ineffective" →
      classify label = SeverityClass.unknown) := by
  refine ⟨?_, rfl, rfl, rfl, rfl, rfl, ?_⟩
  · unfold getRiskColor classify colorOfClass
    split_ifs <;> rfl
  · intro h1 h2 h3 h4
    simp [classify, h1, h2, h3, h4]

/-- Witness for C5 at an unrecognized label. -/
theorem C5_classify_total_witness :
    classify "Unknown-Label" = SeverityClass.unknown :=
  (C5_classify_total "Unknown-Label").2.2.2.2.2.2
    (by decide) (by decide) (by decide) (by decide)

/-- C6: candidates over 5242880 bytes are rejected regardless of type,
candidates without a recognized VCF-family type are rejected regardless
of size, and every outcome is the typed acceptance or a rejection
carrying the single human-readable reason. -/
theorem C6_accept_rejects (c : FileCand) :
    (5242880 < c.size → accept c = AcceptOutcome.rejected rejectReason) ∧
    (vcfFamily c = false → accept c = AcceptOutcome.rejected rejectReason) ∧
    (accept c = AcceptOutcome.accepted c ∨ accept c = AcceptOutcome.rejected rejectReason) := by
  refine ⟨?_, ?_, ?_⟩
  · intro h
    simp [accept, fileAccept, Nat.not_le.mpr h]
  · intro h
    simp [accept, fileAccept, h]
  · unfold accept
    split
    · exact Or.inl rfl
    · exact Or.inr rfl

/-- Witness for C6: an oversized `.vcf` candidate and a right-sized
candidate of unrecognized type are both rejected. -/
theorem C6_accept_rejects_witness :
    accept { name := "big.vcf", size := 6000000, type := "text/vcard" } =
      AcceptOutcome.rejected rejectReason ∧
    accept { name := "notes.txt", size := 10, type := "text/plain" } =
      AcceptOutcome.rejected rejectReason := by
  constructor
  · exact (C6_accept_rejects _).1 (by decide)
  · exact (C6_accept_rejects _).2.1 (by decide)

/-- C10: on a file-selection event a rejected candidate leaves the staged
file unchanged and replaces the error with the rejection reason, an
accepted candidate is staged and clears the error, and the stored
ResultSet is untouched in both cases. -/
theorem C10_drop_frame (s : AppState) (c : FileCand) :
    (fileAccept c = false → step s (Event.drop c) = { s with error := some rejectReason }) ∧
    (fileAccept c = true → step s (Event.drop c) = { s with file := some c, error := none }) ∧
    (step s (Event.drop c)).results = s.results := by
  refine ⟨?_, ?_, ?_⟩
  · intro h
    simp [step, onDrop, h]
  · intro h
    simp [step, onDrop, h]
  · by_cases h : fileAccept c <;> simp [step, onDrop, h]

/-- Witness for C10: a rejected oversized candidate leaves a staged file
in place; an accepted candidate replaces it and clears the error. -/
theorem C10_drop_frame_witness :
    step { initState with file := some vcfFile, error := some "old" }
        (Event.drop { name := "big.vcf", size := 6000000, type := "text/vcard" }) =
      { initState with file := some vcfFile, error := some rejectReason } ∧
    step { initState with error := some "old" } (Event.drop vcfFile) =
      { initState with file := some vcfFile, error := none } := by
  constructor
  · exact (C10_drop_frame _ _).1 (by decide)
  · exact (C10_drop_frame _ _).2.1 (by decide)

/-- C1 as stated fails on the code: after the reachable trace `c1Trace` —
stage a file, analyze successfully, blank the drug text and trigger
analyze again — the resulting state is outside the submitting phase yet
carries both the previous ResultSet and the validation error message,
because a local validation failure does not clear the stored ResultSet. -/
theorem C1_counterexample :
    (runEvents c1Trace).results = some [sampleResult] ∧
    (runEvents c1Trace).error = some missingDrugsMsg ∧
    (runEvents c1Trace).loading = false :=
  ⟨rfl, rfl, rfl⟩

/-- C1 amended: after an analyze trigger that passes local validation,
exactly one of ResultSet and error message is present in the resulting
state; an analyze trigger failing local validation records its message
but retains the previously stored ResultSet unchanged. -/
theorem C1_amended_exclusivity (s : AppState) (net : FetchOutcome) :
    (s.file ≠ none → jsTrim s.drugs ≠ "" →
      ((handleAnalyze s net).1.results ≠ none ↔ (handleAnalyze s net).1.error = none)) ∧
    ((s.file = none ∨ jsTrim s.drugs = "") →
      ((handleAnalyze s net).1.results = s.results ∧
        (handleAnalyze s net).1.error ≠ none)) := by
  constructor
  · intro h1 h2
    cases net with
    | fault msg => simp [handleAnalyze, Option.isNone_iff_eq_none, h1, h2]
    | resp ok body =>
      cases ok with
      | false => simp [handleAnalyze, Option.isNone_iff_eq_none, h1, h2]
      | true =>
        cases body with
        | unparseable m => simp [handleAnalyze, Option.isNone_iff_eq_none, h1, h2]
        | json v => simp [handleAnalyze, Option.isNone_iff_eq_none, h1, h2]
  · intro h
    rcases h with h | h
    · simp [handleAnalyze, h]
    · by_cases hf : s.file = none
      · simp [handleAnalyze, hf]
      · simp [handleAnalyze, Option.isNone_iff_eq_none, hf, h]

/-- Witness for C1 amended: the ready state receiving a network fault
satisfies the exclusivity, and a blank-drugs trigger keeps its stored
ResultSet while surfacing an error. -/
theorem C1_amended_exclusivity_witness :
    ((handleAnalyze { initState with file := some vcfFile, drugs := "WARFARIN" }
        (FetchOutcome.fault "down")).1.results ≠ none ↔
      (handleAnalyze { initState with file := some vcfFile, drugs := "WARFARIN" }
        (FetchOutcome.fault "down")).1.error = none) ∧
    ((handleAnalyze { initState with
          file := some vcfFile, drugs := " ", results := some [sampleResult] }
        (FetchOutcome.fault "down")).1.results = some [sampleResult] ∧
      (handleAnalyze { initState with
          file := some vcfFile, drugs := " ", results := some [sampleResult] }
        (FetchOutcome.fault "down")).1.error ≠ none) := by
  constructor
  · exact (C1_amended_exclusivity _ _).1 (by simp) (by decide)
  · exact (C1_amended_exclusivity _ _).2 (Or.inr rfl)

/-- The uppercase map fixes characters outside the lowercase ASCII range. -/
theorem upperChar_eq_self (c : Char) (h : ¬(97 ≤ c.toNat ∧ c.toNat ≤ 122)) :
    upperChar c = c := by
  simp [upperChar, h]

/-- Code point of the uppercase map on the lowercase ASCII range. -/
theorem upperChar_toNat (c : Char) (h : 97 ≤ c.toNat ∧ c.toNat ≤ 122) :
    (upperChar c).toNat = c.toNat - 32 := by
  have hv : Nat.isValidChar (c.toNat - 32) := isValidChar_of_lt _ (by omega)
  simp [upperChar, h, toNat_ofNat_valid _ hv]

/-- The uppercase map is idempotent on characters. -/
theorem upperChar_idem (c : Char) : upperChar (upperChar c) = upperChar c := by
  by_cases h : 97 ≤ c.toNat ∧ c.toNat ≤ 122
  · have h2 : ¬(97 ≤ (upperChar c).toNat ∧ (upperChar c).toNat ≤ 122) := by
      rw [upperChar_toNat c h]
      omega
    exact upperChar_eq_self _ h2
  · rw [upperChar_eq_self c h, upperChar_eq_self c h]

/-- C7: the drug-text composer is idempotent, maps every character
through the uppercase map (so its output has no lowercase ASCII letters
and its length equals the input's), and keeps every character outside
the lowercase ASCII range — commas and internal whitespace included —
unchanged; no splitting, trimming or comma validation happens. -/
theorem C7_normalize_idempotent (s : String) :
    normalize (normalize s) = normalize s ∧
    (normalize s).data = s.data.map upperChar ∧
    (normalize s).length = s.length ∧
    (∀ c ∈ (normalize s).data, ¬(97 ≤ c.toNat ∧ c.toNat ≤ 122)) ∧
    (∀ c ∈ s.data, ¬(97 ≤ c.toNat ∧ c.toNat ≤ 122) → upperChar c = c) := by
  refine ⟨?_, rfl, ?_, ?_, ?_⟩
  · show String.mk ((s.data.map upperChar).map upperChar) = String.mk (s.data.map upperChar)
    rw [List.map_map]
    congr 1
    exact List.map_congr_left (fun c _ => upperChar_idem c)
  · show (s.data.map upperChar).length = s.data.length
    exact List.length_map _ _
  · intro c hc
    rcases List.mem_map.mp hc with ⟨c0, _, rfl⟩
    by_cases h : 97 ≤ c0.toNat ∧ c0.toNat ≤ 122
    · rw [upperChar_toNat c0 h]
      omega
    · rw [upperChar_eq_self c0 h]
      exact h
  · intro c _ h
    exact upperChar_eq_self c h

/-- Witness for C7 at a concrete mixed string: idempotence holds and the
comma is preserved. -/
theorem C7_normalize_idempotent_witness :
    normalize (normalize "warfarin, Codeine") = normalize "warfarin, Codeine" ∧
    upperChar ',' = ',' := by
  constructor
  · exact (C7_normalize_idempotent "warfarin, Codeine").1
  · exact (C7_normalize_idempotent "warfarin, Codeine").2.2.2.2 ',' (by decide) (by decide)

/-- C9: the rendered percentage is the score multiplied by 100 and
rounded to the nearest integer — ties upward, no truncation, no decimal
places; 0.873 renders as 87 percent and 0.005 as 1 percent. -/
theorem C9_confidence_rounding (score : ℚ) :
    confidenceText score = toString (round (score * 100)) ++ "%" ∧
    confidenceText (873 / 1000) = "87%" ∧
    confidenceText (5 / 1000) = "1%" := by
  refine ⟨?_, ?_, ?_⟩
  · rw [confidenceText, toFixed0, round_eq]
  · have h : toFixed0 ((873 : ℚ) / 1000 * 100) = 87 := by
      unfold toFixed0
      rw [Int.floor_eq_iff]
      norm_num
    rw [confidenceText, h]
    rfl
  · have h : toFixed0 ((5 : ℚ) / 1000 * 100) = 1 := by
      unfold toFixed0
      rw [Int.floor_eq_iff]
      norm_num
    rw [confidenceText, h]
    rfl

/-- C4 as stated fails on the code at three inputs: a non-success
response whose body carries an empty-string `detail` (present and
parseable) surfaces the generic message rather than that detail string;
a network-level fault surfaces the fault's own message rather than the
generic server message; and a non-success response whose body parses to
JSON `null` surfaces the message of the TypeError thrown by the detail
access, again not the generic message. -/
theorem C4_counterexample :
    (handleAnalyze { initState with file := some vcfFile, drugs := "WARFARIN" }
        (FetchOutcome.resp false (Body.json (Json.obj [("detail", Json.str "")])))).1.error =
      some serverErrMsg ∧
    serverErrMsg ≠ "" ∧
    (handleAnalyze { initState with file := some vcfFile, drugs := "WARFARIN" }
        (FetchOutcome.fault "Failed to fetch")).1.error = some "Failed to fetch" ∧
    "Failed to fetch" ≠ serverErrMsg ∧
    (handleAnalyze { initState with file := some vcfFile, drugs := "WARFARIN" }
        (FetchOutcome.resp false (Body.json Json.null))).1.error = some nullDetailErrMsg ∧
    nullDetailErrMsg ≠ serverErrMsg := by
  exact ⟨rfl, by decide, rfl, by decide, rfl, by decide⟩

/-- A value carrying a `detail` property is an object, hence not `null`. -/
theorem detail_not_null (v d : Json) (h : detailOf v = some d) : isNullJson v = false := by
  cases v with
  | obj fs => rfl
  | null => simp [detailOf] at h
  | bool b => simp [detailOf] at h
  | num dd => simp [detailOf] at h
  | str s => simp [detailOf] at h
  | arr xs => simp [detailOf] at h

/-- C4 amended: every fault of the analyze call is caught and exactly one
message is surfaced — a non-success response surfaces the server's
`detail` coerced to a string when present and truthy (in particular a
non-empty detail string verbatim); when the failure body parses to JSON
`null`, the detail access itself throws and that TypeError's message is
surfaced; else the generic server message (also when the failure body is
unparseable); a network-level fault or an unparseable success body
surfaces the underlying error's own message; the error slot stays clear
exactly on a parsed success response. -/
theorem C4_amended_error_priority (s : AppState) :
    s.file ≠ none → jsTrim s.drugs ≠ "" →
    ((∀ body, (handleAnalyze s (FetchOutcome.resp false body)).1.error =
        some (errMsgOf body)) ∧
     (∀ d v, detailOf v = some (Json.str d) → d ≠ "" →
        errMsgOf (Body.json v) = d) ∧
     (∀ v, isNullJson v = false → detailOf v = none →
        errMsgOf (Body.json v) = serverErrMsg) ∧
     (∀ m, errMsgOf (Body.unparseable m) = serverErrMsg) ∧
     (∀ m, (handleAnalyze s (FetchOutcome.fault m)).1.error = some m) ∧
     (∀ m, (handleAnalyze s
        (FetchOutcome.resp true (Body.unparseable m))).1.error = some m) ∧
     (∀ net, (handleAnalyze s net).1.error = none ↔
        ∃ v, net = FetchOutcome.resp true (Body.json v)) ∧
     errMsgOf (Body.json Json.null) = nullDetailErrMsg ∧
     nullDetailErrMsg ≠ serverErrMsg) := by
  intro h1 h2
  refine ⟨?_, ?_, ?_, fun m => rfl, ?_, ?_, ?_, rfl, by decide⟩
  · intro body
    simp [handleAnalyze, Option.isNone_iff_eq_none, h1, h2]
  · intro d v hv hd
    simp [errMsgOf, detail_not_null v _ hv, hv, jsTruthy, hd, jsToString]
  · intro v hnull hv
    simp [errMsgOf, hnull, hv]
  · intro m
    simp [handleAnalyze, Option.isNone_iff_eq_none, h1, h2]
  · intro m
    simp [handleAnalyze, Option.isNone_iff_eq_none, h1, h2]
  · intro net
    cases net with
    | fault msg =>
      simp [handleAnalyze, Option.isNone_iff_eq_none, h1, h2]
    | resp ok body =>
      cases ok with
      | false =>
        simp [handleAnalyze, Option.isNone_iff_eq_none, h1, h2]
      | true =>
        cases body with
        | unparseable m =>
          simp [handleAnalyze, Option.isNone_iff_eq_none, h1, h2]
        | json v =>
          simp [handleAnalyze, Option.isNone_iff_eq_none, h1, h2]

/-- Witness for C4 amended: a non-success response with detail
`bad input` surfaces exactly that string. -/
theorem C4_amended_error_priority_witness :
    (handleAnalyze { initState with file := some vcfFile, drugs := "WARFARIN" }
        (FetchOutcome.resp false
          (Body.json (Json.obj [("detail", Json.str "bad input")])))).1.error =
      some (errMsgOf (Body.json (Json.obj [("detail", Json.str "bad input")]))) ∧
    errMsgOf (Body.json (Json.obj [("detail", Json.str "bad input")])) = "bad input" := by
  have h := C4_amended_error_priority
    { initState with file := some vcfFile, drugs := "WARFARIN" } (by simp) (by decide)
  exact ⟨h.1 _, h.2.1 "bad input" _ rfl (by decide)⟩

/-- Consuming a literal chunk it was given succeeds with the rest. -/
theorem expectChars_append (p : List Char) : ∀ r : List Char,
    expectChars p (p ++ r) = some r := by
  induction p with
  | nil => intro r; rfl
  | cons c cs ih => intro r; simp [expectChars, ih]

/-- Digit characters have digit code points. -/
theorem isDigitChar_digitChar (d : Nat) (h : d < 10) :
    isDigitChar (digitChar d) = true := by
  have hv : Nat.isValidChar (48 + d) := isValidChar_of_lt _ (by omega)
  simp [isDigitChar, digitChar, toNat_ofNat_valid _ hv]
  omega

/-- Digit characters decode to their value. -/
theorem charDigitVal_digitChar (d : Nat) (h : d < 10) :
    charDigitVal (digitChar d) = d := by
  have hv : Nat.isValidChar (48 + d) := isValidChar_of_lt _ (by omega)
  simp [charDigitVal, digitChar, toNat_ofNat_valid _ hv]

/-- The decimal rendering of a natural number consists of digits. -/
theorem natChars_digits (n : Nat) : ∀ c ∈ natChars n, isDigitChar c = true := by
  induction n using Nat.strong_induction_on with
  | _ n ih =>
    rw [natChars]
    by_cases h : n < 10
    · simp only [if_pos h, List.mem_singleton]
      rintro c rfl
      exact isDigitChar_digitChar n h
    · simp only [if_neg h, List.mem_append, List.mem_singleton]
      rintro c (hc | rfl)
      · exact ih (n / 10) (Nat.div_lt_self (by omega) (by omega)) c hc
      · exact isDigitChar_digitChar (n % 10) (Nat.mod_lt _ (by omega))

/-- The decimal rendering of a natural number is non-empty. -/
theorem natChars_ne_nil (n : Nat) : natChars n ≠ [] := by
  rw [natChars]
  by_cases h : n < 10 <;> simp [h]

/-- Value of a digit string extended by one digit. -/
theorem valChars_append_digit (xs : List Char) (d : Char) :
    valChars (xs ++ [d]) = 10 * valChars xs + charDigitVal d := by
  simp [valChars, List.foldl_append]

/-- The decimal rendering of a natural number evaluates back to it. -/
theorem valChars_natChars (n : Nat) : valChars (natChars n) = n := by
  induction n using Nat.strong_induction_on with
  | _ n ih =>
    rw [natChars]
    by_cases h : n < 10
    · simp only [if_pos h]
      simp [valChars, charDigitVal_digitChar n h]
    · simp only [if_neg h]
      rw [valChars_append_digit, ih (n / 10) (Nat.div_lt_self (by omega) (by omega)),
        charDigitVal_digitChar (n % 10) (Nat.mod_lt _ (by omega))]
      omega

/-- Length bound of the decimal rendering: a number below `10 ^ k` needs
at most `k` digits (for positive `k`). -/
theorem natChars_length_le (k : Nat) : ∀ n, n < 10 ^ k → 0 < k →
    (natChars n).length ≤ k := by
  induction k with
  | zero => intro n _ hk; omega
  | succ k ih =>
    intro n hn _
    rw [natChars]
    by_cases h : n < 10
    · simp [h]
    · simp only [if_neg h, List.length_append, List.length_singleton]
      have hk : 0 < k := by
        by_contra hk0
        have : k = 0 := by omega
        subst this
        simp at hn
        omega
      have hdiv : n / 10 < 10 ^ k := by
        rw [Nat.div_lt_iff_lt_mul (by omega)]
        calc n < 10 ^ (k + 1) := hn
        _ = 10 ^ k * 10 := by ring
      have := ih (n / 10) hdiv hk
      omega

/-- Leading zero characters do not change the decoded value. -/
theorem valChars_replicate_zero (m : Nat) (xs : List Char) :
    valChars (List.replicate m '0' ++ xs) = valChars xs := by
  induction m with
  | zero => rfl
  | succ m ih =>
    have : ('0' : Char).toNat = 48 := rfl
    simpa [List.replicate_succ, valChars, charDigitVal, this] using ih

/-- takeWhile splits a digit prefix off a rest with a non-digit head. -/
theorem takeWhile_digits_append (xs : List Char) :
    ∀ rest : List Char, (∀ c ∈ xs, isDigitChar c = true) →
    (∀ c, rest.head? = some c → isDigitChar c = false) →
    (xs ++ rest).takeWhile isDigitChar = xs ∧
      (xs ++ rest).dropWhile isDigitChar = rest := by
  induction xs with
  | nil =>
    intro rest _ h2
    cases rest with
    | nil => exact ⟨rfl, rfl⟩
    | cons c cs =>
      have := h2 c rfl
      constructor
      · simp [List.takeWhile, this]
      · simp [List.dropWhile, this]
  | cons x xs ih =>
    intro rest h1 h2
    have hx : isDigitChar x = true := h1 x (by simp)
    have := ih rest (fun c hc => h1 c (by simp [hc])) h2
    constructor
    · simp [List.takeWhile, hx, this.1]
    · simp [List.dropWhile, hx, this.2]

/-- pDigits consumes exactly a non-empty digit prefix. -/
theorem pDigits_append (xs rest : List Char) (hne : xs ≠ [])
    (h1 : ∀ c ∈ xs, isDigitChar c = true)
    (h2 : ∀ c, rest.head? = some c → isDigitChar c = false) :
    pDigits (xs ++ rest) = some (xs, rest) := by
  have hsplit := takeWhile_digits_append xs rest h1 h2
  unfold pDigits
  rw [hsplit.1, hsplit.2]
  cases xs with
  | nil => exact absurd rfl hne
  | cons x xs => rfl

/-- Digit characters are neither the sign nor the point. -/
theorem digit_ne_sign_point (x : Char) (hx : isDigitChar x = true) :
    x ≠ '-' ∧ x ≠ '.' := by
  constructor <;> rintro rfl <;> exact absurd hx (by decide)

/-- The rendering of a natural number starts with a digit. -/
theorem natChars_head (n : Nat) :
    ∃ x t, natChars n = x :: t ∧ isDigitChar x = true := by
  cases h : natChars n with
  | nil => exact absurd h (natChars_ne_nil n)
  | cons a b =>
    refine ⟨a, b, rfl, ?_⟩
    exact natChars_digits n a (by rw [h]; simp)

/-- The digit rendering of a decimal starts with a digit. -/
theorem decDigitChars_head (d : Dec) :
    ∃ x t, decDigitChars d = x :: t ∧ isDigitChar x = true := by
  obtain ⟨x, t, hxt, hx⟩ := natChars_head d.intPart
  refine ⟨x, t ++ (if d.fracLen = 0 then []
    else '.' :: (List.replicate (d.fracLen - (natChars d.fracPart).length) '0' ++
      natChars d.fracPart)), ?_, hx⟩
  unfold decDigitChars
  rw [hxt]
  rfl

/-- The after-sign number parser reconstructs the digit rendering of a
well-formed decimal. -/
theorem pDecAfterSign_emit (neg : Bool) (i f k : Nat) (hwf : f < 10 ^ k) (c : Char)
    (rest : List Char) (hc1 : isDigitChar c = false) (hc2 : c ≠ '.') :
    pDecAfterSign neg
        (decDigitChars { neg := neg, intPart := i, fracPart := f, fracLen := k } ++
          (c :: rest)) =
      some ({ neg := neg, intPart := i, fracPart := f, fracLen := k }, c :: rest) := by
  have hcrest : ∀ c0 : Char, (c :: rest).head? = some c0 → isDigitChar c0 = false := by
    intro c0 h0
    simp only [List.head?_cons, Option.some.injEq] at h0
    rw [← h0]
    exact hc1
  cases k with
  | zero =>
    have hf : f = 0 := by simpa using hwf
    subst hf
    have hdd : decDigitChars { neg := neg, intPart := i, fracPart := 0, fracLen := 0 } =
        natChars i := by
      simp [decDigitChars]
    rw [hdd]
    unfold pDecAfterSign
    rw [pDigits_append (natChars i) (c :: rest) (natChars_ne_nil i) (natChars_digits i)
      hcrest]
    have hne : ¬(((natChars i, c :: rest).2 : List Char).head? = some '.') := by
      simp only [List.head?_cons, Option.some.injEq]
      exact fun h => hc2 h
    rw [Option.some_bind, if_neg hne, valChars_natChars]
  | succ k0 =>
    have hdd : decDigitChars { neg := neg, intPart := i, fracPart := f, fracLen := k0 + 1 } =
        natChars i ++ ('.' ::
          (List.replicate (k0 + 1 - (natChars f).length) '0' ++ natChars f)) := by
      simp [decDigitChars]
    rw [hdd]
    have hassoc : (natChars i ++ ('.' ::
          (List.replicate (k0 + 1 - (natChars f).length) '0' ++ natChars f))) ++
          (c :: rest) =
        natChars i ++ ('.' ::
          ((List.replicate (k0 + 1 - (natChars f).length) '0' ++ natChars f) ++
            (c :: rest))) := by
      simp
    rw [hassoc]
    unfold pDecAfterSign
    rw [pDigits_append (natChars i) _ (natChars_ne_nil i) (natChars_digits i)
      (by intro c0 h0
          simp only [List.head?_cons, Option.some.injEq] at h0
          rw [← h0]
          decide)]
    rw [Option.some_bind, if_pos (by simp)]
    have hfr : ∀ c0 ∈ List.replicate (k0 + 1 - (natChars f).length) '0' ++ natChars f,
        isDigitChar c0 = true := by
      intro c0 hc0
      rcases List.mem_append.mp hc0 with hc0 | hc0
      · rw [List.eq_of_mem_replicate hc0]
        decide
      · exact natChars_digits f c0 hc0
    have hfne : List.replicate (k0 + 1 - (natChars f).length) '0' ++ natChars f ≠ [] := by
      intro h
      exact natChars_ne_nil f (List.append_eq_nil.mp h).2
    have htl : (((natChars i, '.' ::
          ((List.replicate (k0 + 1 - (natChars f).length) '0' ++ natChars f) ++
            (c :: rest))).2 : List Char).tail) =
        (List.replicate (k0 + 1 - (natChars f).length) '0' ++ natChars f) ++
          (c :: rest) := rfl
    rw [htl, pDigits_append _ (c :: rest) hfne hfr hcrest]
    have hlen : (natChars f).length ≤ k0 + 1 :=
      natChars_length_le (k0 + 1) f hwf (by omega)
    have hlen2 : (List.replicate (k0 + 1 - (natChars f).length) '0' ++
        natChars f).length = k0 + 1 := by
      simp only [List.length_append, List.length_replicate]
      omega
    rw [Option.some_bind, valChars_natChars, valChars_replicate_zero, valChars_natChars,
      hlen2]

/-- The number parser reconstructs the rendering of a well-formed
decimal when the following character is neither a digit nor a point. -/
theorem pDec_decChars (d : Dec) (hwf : decWf d) (c : Char) (rest : List Char)
    (hc1 : isDigitChar c = false) (hc2 : c ≠ '.') :
    pDec (decChars d ++ (c :: rest)) = some (d, c :: rest) := by
  obtain ⟨neg, i, f, k⟩ := d
  have hwf' : f < 10 ^ k := hwf
  cases neg with
  | false =>
    have h1 : decChars { neg := false, intPart := i, fracPart := f, fracLen := k } =
        decDigitChars { neg := false, intPart := i, fracPart := f, fracLen := k } := by
      simp [decChars]
    rw [h1]
    obtain ⟨x, t, hxt, hx⟩ :=
      decDigitChars_head { neg := false, intPart := i, fracPart := f, fracLen := k }
    have hbeq : ((decDigitChars { neg := false, intPart := i, fracPart := f, fracLen := k } ++
        (c :: rest)).head? == some '-') = false := by
      rw [hxt]
      simp only [List.cons_append, List.head?_cons]
      have := (digit_ne_sign_point x hx).1
      simp [this]
    simp only [pDec, hbeq, Bool.false_eq_true, if_false]
    exact pDecAfterSign_emit false i f k hwf' c rest hc1 hc2
  | true =>
    have h1 : decChars { neg := true, intPart := i, fracPart := f, fracLen := k } =
        '-' :: decDigitChars { neg := true, intPart := i, fracPart := f, fracLen := k } := by
      simp [decChars]
    rw [h1]
    simp only [List.cons_append, pDec, List.head?_cons, List.tail_cons]
    have hbeq : ((some '-' : Option Char) == some '-') = true := by decide
    rw [hbeq]
    simp only [if_true]
    exact pDecAfterSign_emit true i f k hwf' c rest hc1 hc2

/-- Hex digit characters decode to their value. -/
theorem hexVal_hexDigitChar (n : Nat) (h : n < 16) :
    hexVal (hexDigitChar n) = some n := by
  unfold hexDigitChar
  by_cases h10 : n < 10
  · rw [if_pos h10]
    have hv : Nat.isValidChar (48 + n) := isValidChar_of_lt _ (by omega)
    unfold hexVal
    rw [toNat_ofNat_valid _ hv, if_pos (by omega)]
    congr 1
    omega
  · rw [if_neg h10]
    have hv : Nat.isValidChar (87 + n) := isValidChar_of_lt _ (by omega)
    unfold hexVal
    rw [toNat_ofNat_valid _ hv, if_neg (by omega), if_pos (by omega)]
    congr 1
    omega

/-- The string-body parser decodes an escaped character sequence followed
by the closing quote, extending the accumulator. -/
theorem pStrAux_esc (cs : List Char) : ∀ acc rest : List Char,
    pStrAux acc (escChars cs ++ ('"' :: rest)) = some (acc.reverse ++ cs, rest) := by
  induction cs with
  | nil =>
    intro acc rest
    rw [show escChars [] ++ ('"' :: rest) = '"' :: rest from rfl]
    rw [pStrAux.eq_def]
    simp
  | cons c cs ih =>
    intro acc rest
    rw [show escChars (c :: cs) = escChar c ++ escChars cs from rfl]
    by_cases h1 : c = '"'
    · subst h1
      rw [show escChar '"' = ['\\', '"'] from rfl]
      simp only [List.cons_append, List.nil_append, List.append_assoc]
      rw [pStrAux.eq_def]
      simp [ih, List.append_assoc]
    · by_cases h2 : c = '\\'
      · subst h2
        rw [show escChar '\\' = ['\\', '\\'] from rfl]
        simp only [List.cons_append, List.nil_append, List.append_assoc]
        rw [pStrAux.eq_def]
        simp [ih, List.append_assoc]
      · by_cases h3 : c = Char.ofNat 8
        · subst h3
          rw [show escChar (Char.ofNat 8) = ['\\', 'b'] from rfl]
          simp only [List.cons_append, List.nil_append, List.append_assoc]
          rw [pStrAux.eq_def]
          simp [ih, List.append_assoc]
        · by_cases h4 : c = Char.ofNat 9
          · subst h4
            rw [show escChar (Char.ofNat 9) = ['\\', 't'] from rfl]
            simp only [List.cons_append, List.nil_append, List.append_assoc]
            rw [pStrAux.eq_def]
            simp [ih, List.append_assoc]
          · by_cases h5 : c = Char.ofNat 10
            · subst h5
              rw [show escChar (Char.ofNat 10) = ['\\', 'n'] from rfl]
              simp only [List.cons_append, List.nil_append, List.append_assoc]
              rw [pStrAux.eq_def]
              simp [ih, List.append_assoc]
            · by_cases h6 : c = Char.ofNat 12
              · subst h6
                rw [show escChar (Char.ofNat 12) = ['\\', 'f'] from rfl]
                simp only [List.cons_append, List.nil_append, List.append_assoc]
                rw [pStrAux.eq_def]
                simp [ih, List.append_assoc]
              · by_cases h7 : c = Char.ofNat 13
                · subst h7
                  rw [show escChar (Char.ofNat 13) = ['\\', 'r'] from rfl]
                  simp only [List.cons_append, List.nil_append, List.append_assoc]
                  rw [pStrAux.eq_def]
                  simp [ih, List.append_assoc]
                · by_cases h8 : c.toNat < 32
                  · rw [show escChar c = ['\\', 'u', '0', '0',
                        hexDigitChar (c.toNat / 16), hexDigitChar (c.toNat % 16)] from by
                      unfold escChar
                      rw [if_neg h1, if_neg h2, if_neg h3, if_neg h4, if_neg h5,
                        if_neg h6, if_neg h7, if_pos h8]]
                    have hdiv : c.toNat / 16 < 16 :=
                      (Nat.div_lt_iff_lt_mul (by omega)).mpr (by omega)
                    have hmod : c.toNat % 16 < 16 := Nat.mod_lt _ (by omega)
                    have h0 : hexVal '0' = some 0 := by decide
                    have hc : Char.ofNat
                        (4096 * 0 + 256 * 0 + 16 * (c.toNat / 16) + c.toNat % 16) = c := by
                      rw [show 4096 * 0 + 256 * 0 + 16 * (c.toNat / 16) + c.toNat % 16
                          = c.toNat from by omega, Char.ofNat_toNat]
                    have hc2 : Char.ofNat (16 * (c.toNat / 16) + c.toNat % 16) = c := by
                      rw [show 16 * (c.toNat / 16) + c.toNat % 16 = c.toNat from by omega,
                        Char.ofNat_toNat]
                    simp only [List.cons_append, List.append_assoc]
                    rw [pStrAux.eq_def]
                    simp [h0, hexVal_hexDigitChar _ hdiv, hexVal_hexDigitChar _ hmod,
                      hc, hc2, ih, List.append_assoc]
                  · rw [show escChar c = [c] from by
                      unfold escChar
                      rw [if_neg h1, if_neg h2, if_neg h3, if_neg h4, if_neg h5,
                        if_neg h6, if_neg h7, if_neg h8]]
                    simp only [List.cons_append, List.nil_append]
                    rw [pStrAux.eq_def]
                    simp [h1, h2, ih, List.append_assoc]

/-- The string parser reconstructs an emitted string literal. -/
theorem pString_emit (s : String) (rest : List Char) :
    pString (emitStr s ++ rest) = some (s, rest) := by
  rw [show emitStr s ++ rest = '"' :: (escChars s.data ++ ('"' :: rest)) from by
    simp [emitStr]]
  rw [show pString ('"' :: (escChars s.data ++ ('"' :: rest))) =
      (pStrAux [] (escChars s.data ++ ('"' :: rest))).map
        (fun p => (String.mk p.1, p.2)) from rfl]
  rw [pStrAux_esc]
  rfl

/-- The element parser reconstructs the emitted elements of a non-empty
string array. -/
theorem pItems_emit : ∀ (xs : List String) (fuel : Nat) (rest : List Char),
    xs ≠ [] → xs.length ≤ fuel →
    pItems fuel (emitItems xs ++ rest) = some (xs, rest) := by
  intro xs
  induction xs with
  | nil =>
    intro fuel rest h _
    exact absurd rfl h
  | cons x xs ih =>
    intro fuel rest _ hlen
    cases fuel with
    | zero => simp at hlen
    | succ n =>
      cases xs with
      | nil =>
        rw [show emitItems [x] = nl6 ++ (emitStr x ++ nlClose4) from rfl]
        simp only [List.append_assoc]
        rw [pItems.eq_def]
        simp only [expectChars_append, Option.some_bind, pString_emit]
        rw [if_neg (by simp [nlClose4])]
        rfl
      | cons y ys =>
        rw [show emitItems (x :: y :: ys) =
          nl6 ++ (emitStr x ++ (',' :: emitItems (y :: ys))) from rfl]
        simp only [List.append_assoc, List.cons_append]
        rw [pItems.eq_def]
        simp only [expectChars_append, Option.some_bind, pString_emit]
        rw [if_pos (by simp)]
        have hlen2 : (y :: ys).length ≤ n := by
          simp only [List.length_cons] at hlen ⊢
          omega
        rw [show ((x, ',' :: (emitItems (y :: ys) ++ rest)).2 : List Char).tail =
          emitItems (y :: ys) ++ rest from rfl]
        rw [ih n rest (by simp) hlen2]
        rfl

/-- The emitted element block has at least one character per element. -/
theorem emitItems_length_ge : ∀ xs : List String, xs.length ≤ (emitItems xs).length := by
  intro xs
  induction xs with
  | nil => simp [emitItems]
  | cons x xs ih =>
    cases xs with
    | nil => simp [emitItems, nl6]
    | cons y ys =>
      rw [show emitItems (x :: y :: ys) =
        nl6 ++ (emitStr x ++ (',' :: emitItems (y :: ys))) from rfl]
      simp only [List.length_append, List.length_cons, List.length_cons] at ih ⊢
      simp [nl6]
      omega

/-- The array parser reconstructs an emitted string array, given enough
fuel. -/
theorem pStrList_emit (xs : List String) (fuel : Nat) (rest : List Char)
    (hlen : xs.length ≤ fuel) :
    pStrList fuel (emitStrList xs ++ rest) = some (xs, rest) := by
  cases xs with
  | nil =>
    rw [show emitStrList [] = ['[', ']'] from rfl]
    simp [pStrList]
  | cons x xs' =>
    rw [show emitStrList (x :: xs') = '[' :: emitItems (x :: xs') from rfl]
    unfold pStrList
    simp only [List.cons_append, List.head?_cons, List.tail_cons]
    rw [if_pos trivial]
    obtain ⟨t, ht⟩ : ∃ t, emitItems (x :: xs') = '\n' :: t := by
      cases xs' <;> exact ⟨_, rfl⟩
    rw [if_neg (by rw [ht]; simp)]
    exact pItems_emit (x :: xs') fuel rest (by simp) hlen

/-- The array parser succeeds with the fuel the record parser supplies. -/
theorem pStrList_call (xs : List String) (Y : List Char) :
    pStrList ((emitStrList xs ++ Y).length + 1) (emitStrList xs ++ Y) = some (xs, Y) := by
  apply pStrList_emit
  cases xs with
  | nil => simp
  | cons x xs' =>
    rw [show emitStrList (x :: xs') = '[' :: emitItems (x :: xs') from rfl]
    have h := emitItems_length_ge (x :: xs')
    simp only [List.length_cons] at h
    simp only [List.length_append, List.length_cons]
    omega

/-- Consuming a literal chunk against itself leaves nothing. -/
theorem expectChars_self (p : List Char) : expectChars p p = some [] := by
  nth_rewrite 2 [show p = p ++ [] from (List.append_nil p).symm]
  exact expectChars_append p []

/-- The number parser reconstructs a well-formed decimal followed by the
chunk that closes the risk assessment. -/
theorem pDec_lit8 (d : Dec) (hwf : decWf d) (X : List Char) :
    pDec (decChars d ++ (lit8 ++ X)) = some (d, lit8 ++ X) := by
  have h : lit8 ++ X = '\n' ::
      ("  \x7d,\n  \"clinical_recommendation\": \x7b\n    \"dosing_guidance\": ".data ++ X) :=
    rfl
  rw [h]
  exact pDec_decChars d hwf '\n' _ (by decide) (by decide)

/-- The profile parser reconstructs the emitted profile section. -/
theorem pProfile_emit (pg dip ph : String) (X : List Char) :
    pProfile (lit2 ++ (emitStr pg ++ (lit3 ++ (emitStr dip ++
        (lit4 ++ (emitStr ph ++ X)))))) =
      some ({ primary_gene := pg, diplotype := dip, phenotype := ph }, X) := by
  unfold pProfile
  simp only [expectChars_append, Option.some_bind, pString_emit, Option.map_some']

/-- The risk parser reconstructs the emitted risk section up to the
chunk that follows it. -/
theorem pRisk_emit (rl sev : String) (d : Dec) (hwf : decWf d) (X : List Char) :
    pRisk (lit5 ++ (emitStr rl ++ (lit6 ++ (emitStr sev ++
        (lit7 ++ (decChars d ++ (lit8 ++ X))))))) =
      some ({ risk_label := rl, severity := sev, confidence_score := d }, lit8 ++ X) := by
  unfold pRisk
  simp only [expectChars_append, Option.some_bind, pString_emit, pDec_lit8 d hwf,
    Option.map_some']

/-- The recommendation parser reconstructs the emitted recommendation
section up to the chunk that follows it. -/
theorem pRecommendation_emit (dg : String) (alts : List String) (X : List Char) :
    pRecommendation (lit8 ++ (emitStr dg ++ (lit9 ++
        (emitStrList alts ++ (lit10 ++ X))))) =
      some ({ dosing_guidance := dg, alternative_drugs := alts }, lit10 ++ X) := by
  unfold pRecommendation
  simp only [expectChars_append, Option.some_bind, pString_emit, pStrList_call,
    Option.map_some']

/-- The explanation parser consumes the emitted explanation section and
the closing braces entirely. -/
theorem pExplanationEnd_emit (bm : String) :
    pExplanationEnd (lit10 ++ (emitStr bm ++ lit11)) =
      some { biological_mechanism := bm } := by
  unfold pExplanationEnd
  simp only [expectChars_append, Option.some_bind, pString_emit, expectChars_self]
  rfl

/-- The record parser reconstructs the canonical export of any
AnalysisResult whose confidence decimal is well-formed. -/
theorem parseARChars_export (r : AnalysisResult)
    (hwf : decWf r.risk_assessment.confidence_score) :
    parseARChars (exportChars r) = some r := by
  obtain ⟨drug, ⟨pg, dip, ph⟩, ⟨rl, sev, conf⟩, ⟨dg, alts⟩, ⟨bm⟩⟩ := r
  have hwf' : decWf conf := hwf
  unfold parseARChars exportChars
  simp only [expectChars_append, Option.some_bind, pString_emit, pProfile_emit,
    pRisk_emit rl sev conf hwf', pRecommendation_emit, pExplanationEnd_emit,
    Option.map_some']

/-- C8: parsing the output of exportText reproduces a structure equal to
the exported AnalysisResult, and the clipboard-copy sink and the
file-download sink receive byte-identical content for the same record. -/
theorem C8_export_roundtrip (r : AnalysisResult)
    (hwf : decWf r.risk_assessment.confidence_score) :
    parseAnalysisResult (exportText r) = some r ∧
    handleCopyJSON r = handleDownloadJSON r := by
  constructor
  · show parseARChars (String.mk (exportChars r)).data = some r
    exact parseARChars_export r hwf
  · rfl

/-- Witness for C8 at the concrete sample record. -/
theorem C8_export_roundtrip_witness :
    decWf sampleAR.risk_assessment.confidence_score ∧
    (parseAnalysisResult (exportText sampleAR) = some sampleAR ∧
      handleCopyJSON sampleAR = handleDownloadJSON sampleAR) :=
  ⟨by decide, C8_export_roundtrip sampleAR (by decide)⟩

end PharmaGuard
